import Mathlib

/-!
Verification of the listener bootstrap and transport-selection subsystem
(`src/node/app.ts`): the `listen` promise state machine with its
provisional-to-permanent error-observer swap, `createApp` transport
selection and bind sequencing, `ensureAddress` address resolution, and
the socket-cleanup error policy.

The embedding is shallow: the event-driven parts of `listen` are modelled
as a fold of a step function over a trace of server events ("listening"
and "error" emissions), with JavaScript promise settle-at-most-once
semantics made explicit.  File reads and other side effects performed by
`createApp` are recorded in an explicit effect trace.
-/

/-- Model of a JavaScript error value as far as this module inspects it:
whether `isNodeJSErrnoException` recognises it, its `code` property (absent
on plain errors) and its `message` (the empty string models a falsy
message). -/
structure JsError where
  errnoException : Bool
  code : Option String
  message : String
deriving DecidableEq, Repr

/-- Modelled from the spec: `isNodeJSErrnoException` is imported from
`./util`, which is not part of the fragment.  Per the spec's socket-cleanup
policy, it recognises NodeJS errno exceptions (the values carrying a `code`
such as "ENOENT"); the model carries the recogniser's verdict on the
error value. -/
def isNodeJSErrnoException (e : JsError) : Bool :=
  e.errnoException

/-- Entries produced on the logging side channel.  `message` and
`errObject` model `logger.error(error.message ? error.message : error)`;
`httpServerError` models `util.logError(logger, "http server error", err)`,
which (modelled from the spec, `../common/util` being outside the fragment)
logs the error at error severity. -/
inductive LogEntry where
  | message (s : String)
  | errObject (e : JsError)
  | httpServerError (e : JsError)
deriving DecidableEq, Repr

/-- Events the server handle can emit while (and after) a bind attempt is
in flight: the "listening" notification, or an "error" emission. -/
inductive ServerEvent where
  | listening
  | error (e : JsError)
deriving DecidableEq, Repr

/-- Settlement state of the promise returned by `listen`, with JavaScript
semantics: a promise settles at most once. -/
inductive PromiseState where
  | pending
  | resolved
  | rejected (e : JsError)
deriving DecidableEq, Repr

/-- Which "error" observer is currently installed on the server handle:
the provisional `reject` registered by `server.on("error", reject)`, or
the permanent logging observer installed by `onListen` after
`server.off("error", reject)`. -/
inductive ErrorHandler where
  | rejectHandler
  | logHandler
deriving DecidableEq, Repr

/-- State of one bind attempt: the promise, the installed error observer,
and the log produced so far. -/
structure ListenState where
  promise : PromiseState
  handler : ErrorHandler
  log : List LogEntry
deriving DecidableEq, Repr

/-- Settle the promise to `p` if it is still pending; a settled promise is
unchanged (JavaScript `resolve`/`reject` are no-ops after settlement). -/
def settle (s : ListenState) (p : PromiseState) : ListenState :=
  match s.promise with
  | PromiseState.pending => { s with promise := p }
  | _ => s

/-- One event-loop delivery during a bind attempt.  On "listening",
`onListen` runs: it deregisters the provisional `reject` observer,
installs the permanent logging observer, and resolves.  On "error", the
currently installed observer runs: the provisional one rejects the
promise, the permanent one appends to the log. -/
def listenStep (s : ListenState) (ev : ServerEvent) : ListenState :=
  match ev with
  | ServerEvent.listening =>
      settle { s with handler := ErrorHandler.logHandler } PromiseState.resolved
  | ServerEvent.error e =>
      match s.handler with
      | ErrorHandler.rejectHandler => settle s (PromiseState.rejected e)
      | ErrorHandler.logHandler =>
          { s with log := s.log ++ [LogEntry.httpServerError e] }

/-- State right after `listen`'s executor registers
`server.on("error", reject)`: promise pending, provisional observer
installed, nothing logged. -/
def initialListenState : ListenState :=
  ⟨PromiseState.pending, ErrorHandler.rejectHandler, []⟩

/-- Run one bind attempt over a trace of server events. -/
def runListen (events : List ServerEvent) : ListenState :=
  events.foldl listenStep initialListenState

/-- Log entry extracted from an event by the permanent logging observer. -/
def errLog (ev : ServerEvent) : Option LogEntry :=
  match ev with
  | ServerEvent.error e => some (LogEntry.httpServerError e)
  | ServerEvent.listening => none

/-- Model of the extracted `handleServerError` helper: what it does with
an error, as a returned action. -/
inductive ServerErrorAction where
  | rejectWith (e : JsError)
  | logged (e : JsError)
deriving DecidableEq, Repr

/-- Embedding of `handleServerError(resolved, err, reject)`: if the
promise has not resolved it calls `reject(err)`, otherwise it logs the
error via `util.logError`. -/
def handleServerError (resolved : Bool) (err : JsError) : ServerErrorAction :=
  if !resolved then ServerErrorAction.rejectWith err
  else ServerErrorAction.logged err

/-- Embedding of `handleArgsSocketCatchError(error)`: the list of log
entries it produces.  When the error is not a NodeJS errno exception, or
its code is not "ENOENT", it logs `error.message` when that is truthy and
the error value itself otherwise; an ENOENT errno exception is ignored
silently. -/
def handleArgsSocketCatchError (error : JsError) : List LogEntry :=
  if isNodeJSErrnoException error = false ∨ error.code ≠ some "ENOENT" then
    [if error.message ≠ "" then LogEntry.message error.message
     else LogEntry.errObject error]
  else []

/-- Outcome of the `fs.unlink(socket)` attempt, supplied by the
environment. -/
inductive UnlinkResult where
  | ok
  | err (e : JsError)
deriving DecidableEq, Repr

/-- Embedding of `host.replace(/^\[|\]$/g, "")` on the character list of
the host: the regex removes a `[` anchored at the start and a `]`
anchored at the end, each when present. -/
def stripBracketsList (l : List Char) : List Char :=
  let l1 := if l.head? = some '[' then l.tail else l
  if l1.getLast? = some ']' then l1.dropLast else l1

/-- Bracket stripping lifted back to strings. -/
def stripBrackets (s : String) : String :=
  String.mk (stripBracketsList s.data)

/-- The `socket`/`port`/`host` fields `listen` picks out of the defaulted
CLI arguments. -/
structure ListenOptions where
  socket : Option String
  port : Nat
  host : String
deriving DecidableEq, Repr

/-- The call `listen` makes on the underlying server handle: either
`server.listen(socket, onListen)` or
`server.listen(port, host.replace(..), onListen)`. -/
inductive ListenCall where
  | onSocket (path : String)
  | onHostPort (port : Nat) (host : String)
deriving DecidableEq, Repr

/-- Embedding of `listen`'s dispatch on the bind target: for a socket
target, the unlink attempt's failure (if any) is routed through
`handleArgsSocketCatchError` and the listen call still targets the socket
path; for a network target the host is bracket-stripped.  Returns the log
entries produced before the listen call together with the call itself. -/
def listenSetup (opts : ListenOptions) (u : UnlinkResult) :
    List LogEntry × ListenCall :=
  match opts.socket with
  | some p =>
      (match u with
       | UnlinkResult.ok => []
       | UnlinkResult.err e => handleArgsSocketCatchError e,
       ListenCall.onSocket p)
  | none => ([], ListenCall.onHostPort opts.port (stripBrackets opts.host))

/-- The value `server.address()` reports: `null` is modelled by wrapping
in `Option`; otherwise either a string (socket-path bind) or the
structural address-info object with `address` and `port` fields. -/
inductive ServerAddress where
  | str (s : String)
  | info (address : String) (port : Nat)
deriving DecidableEq, Repr

/-- The message of the error `ensureAddress` throws on an unbound handle
(the spec's `NoAddressError`). -/
def noAddressErrorMessage : String := "server has no address"

/-- Embedding of `ensureAddress(server)` as a function of the reported
address: throwing is modelled as `Except.error`.  A missing address
throws; a non-string address is formatted as
`http://` address `:` port; a string address is returned as-is. -/
def ensureAddress (addr : Option ServerAddress) : Except String String :=
  match addr with
  | none => Except.error noAddressErrorMessage
  | some (ServerAddress.info a p) =>
      Except.ok ("http://" ++ a ++ ":" ++ toString p)
  | some (ServerAddress.str s) => Except.ok s

/-- Model of an Express application object: `express()` constructs one
with no middleware, `app.use(compression())` registers the compression
middleware. -/
structure ExpressApp where
  middleware : List String
deriving DecidableEq, Repr

/-- The primary request handler `createApp` builds: `express()` followed
by `app.use(compression())`. -/
def primaryApp : ExpressApp := ⟨["compression"]⟩

/-- The secondary upgrade-handler app: a fresh `express()` with nothing
registered by this module. -/
def wsAppEmpty : ExpressApp := ⟨[]⟩

/-- The server handle the transport selector produces: either a plaintext
HTTP server or an encrypted-transport (httpolyglot TLS-capable) server
carrying the certificate bytes and optional private-key bytes, each wired
to a request handler. -/
inductive ServerHandle where
  | plainHttp (handler : ExpressApp)
  | tls (cert : List Nat) (key : Option (List Nat)) (handler : ExpressApp)
deriving DecidableEq, Repr

/-- Side effects `createApp` performs, in order: reading a credential
file via `fs.readFile`, issuing the underlying listen call, and attaching
the upgrade dispatcher via `handleUpgrade`. -/
inductive Effect where
  | readFile (path : String)
  | bindCall (c : ListenCall)
  | upgradeAttach
deriving DecidableEq, Repr

/-- The `args.cert` optional value; its `value` field is the certificate
file path. -/
structure Cert where
  value : String
deriving DecidableEq, Repr

/-- The defaulted CLI arguments `createApp` consumes: `cert`,
`cert-key` (written `certKey`), and the `socket`/`port`/`host` listen
options. -/
structure DefaultedArgs where
  cert : Option Cert
  certKey : Option String
  socket : Option String
  port : Nat
  host : String
deriving DecidableEq, Repr

/-- Projection of the listen options out of the defaulted arguments. -/
def DefaultedArgs.listenOptions (a : DefaultedArgs) : ListenOptions :=
  ⟨a.socket, a.port, a.host⟩

/-- Awaited outcome of the `listen` promise over an event trace: `none`
models a promise that never settles (the await never returns). -/
def listenOutcome (events : List ServerEvent) : Option (Except JsError Unit) :=
  match (runListen events).promise with
  | PromiseState.pending => none
  | PromiseState.resolved => some (Except.ok ())
  | PromiseState.rejected e => some (Except.error e)

/-- Embedding of `createApp(args)`.  `fsContents` gives the byte contents
`fs.readFile` returns for a path; `events` is the server-event trace
driving the bind attempt and `u` the unlink outcome.  Returns the effect
trace together with the settled result: `none` when the awaited listen
promise never settles, otherwise the rejection error or the
`[app, wsApp, server]` triple.  When `args.cert` is set the certificate
file and (when configured) the key file are read and an encrypted
handle is built; otherwise a plaintext handle is built.  A bind failure
propagates out of `createApp` before the upgrade dispatcher is
attached. -/
def createApp (fsContents : String → List Nat) (args : DefaultedArgs)
    (events : List ServerEvent) (u : UnlinkResult) :
    List Effect ×
      Option (Except JsError (ExpressApp × ExpressApp × ServerHandle)) :=
  let app := primaryApp
  let credReads : List Effect :=
    match args.cert with
    | none => []
    | some c =>
        Effect.readFile c.value ::
          (match args.certKey with
           | none => []
           | some k => [Effect.readFile k])
  let server : ServerHandle :=
    match args.cert with
    | none => ServerHandle.plainHttp app
    | some c =>
        ServerHandle.tls (fsContents c.value) (args.certKey.map fsContents) app
  let eff := credReads ++ [Effect.bindCall (listenSetup args.listenOptions u).2]
  match listenOutcome events with
  | none => (eff, none)
  | some (Except.error e) => (eff, some (Except.error e))
  | some (Except.ok _) =>
      (eff ++ [Effect.upgradeAttach], some (Except.ok (app, wsAppEmpty, server)))

/-- Sample file-contents environment for concrete evaluations. -/
def demoFs : String → List Nat := fun _ => [1, 2, 3]

/-- Concrete arguments with no credentials. -/
def demoPlainArgs : DefaultedArgs := ⟨none, none, none, 8080, "localhost"⟩

/-- Concrete arguments with a certificate and a private key configured. -/
def demoTlsArgs : DefaultedArgs :=
  ⟨some ⟨"cert.pem"⟩, some "key.pem", none, 8080, "localhost"⟩

/-- Once the promise is rejected, no later event changes it: the
"listening" event's `resolve` is a no-op on a settled promise, and error
events either hit the provisional observer (whose `reject` is a no-op) or
the logging observer. -/
theorem foldl_listenStep_rejected (e : JsError) (evs : List ServerEvent) :
    ∀ (h : ErrorHandler) (l : List LogEntry),
      (evs.foldl listenStep ⟨PromiseState.rejected e, h, l⟩).promise =
        PromiseState.rejected e := by
  induction evs with
  | nil => intro h l; rfl
  | cons ev rest ih =>
      intro h l
      cases ev with
      | listening =>
          simp only [List.foldl_cons, listenStep, settle]
          exact ih ErrorHandler.logHandler l
      | error e2 =>
          cases h with
          | rejectHandler =>
              simp only [List.foldl_cons, listenStep, settle]
              exact ih ErrorHandler.rejectHandler l
          | logHandler =>
              simp only [List.foldl_cons, listenStep]
              exact ih ErrorHandler.logHandler (l ++ [LogEntry.httpServerError e2])

/-- After a successful bind the state is absorbing in its promise and
observer: the promise stays resolved, the logging observer stays
installed, and each subsequent error event appends exactly its log
entry. -/
theorem foldl_listenStep_resolved (evs : List ServerEvent) :
    ∀ (l : List LogEntry),
      evs.foldl listenStep ⟨PromiseState.resolved, ErrorHandler.logHandler, l⟩ =
        ⟨PromiseState.resolved, ErrorHandler.logHandler, l ++ evs.filterMap errLog⟩ := by
  induction evs with
  | nil => intro l; simp
  | cons ev rest ih =>
      intro l
      cases ev with
      | listening =>
          simp only [List.foldl_cons, listenStep, settle]
          rw [ih l]
          simp [errLog]
      | error e =>
          simp only [List.foldl_cons, listenStep]
          rw [ih (l ++ [LogEntry.httpServerError e])]
          simp [errLog]

/-- C1: for every bind attempt in which the server emits an error before
the "listening" event fires, the promise returned by `listen` rejects
carrying the original underlying error, and it settles exactly once: from
the rejected state no later event produces another terminal transition.
The extracted `handleServerError` helper agrees: with `resolved = false`
it rejects with the error. -/
theorem listen_rejects_error_before_listening (e : JsError) (rest : List ServerEvent) :
    (runListen (ServerEvent.error e :: rest)).promise = PromiseState.rejected e ∧
    (∀ (evs : List ServerEvent) (h : ErrorHandler) (l : List LogEntry),
      (evs.foldl listenStep ⟨PromiseState.rejected e, h, l⟩).promise =
        PromiseState.rejected e) ∧
    handleServerError false e = ServerErrorAction.rejectWith e := by
  refine ⟨?_, fun evs h l => foldl_listenStep_rejected e evs h l, rfl⟩
  show (List.foldl listenStep (listenStep initialListenState (ServerEvent.error e)) rest).promise
      = PromiseState.rejected e
  simp only [listenStep, initialListenState, settle]
  exact foldl_listenStep_rejected e rest ErrorHandler.rejectHandler []

/-- C2: for every bind attempt in which the "listening" event fires first
(so the promise resolves), the promise stays resolved no matter what
errors are emitted afterwards — they never reject it — and the log is
exactly one "http server error" entry per subsequent error event.  The
extracted `handleServerError` helper agrees: with `resolved = true` it
only logs. -/
theorem listen_logs_errors_after_listening (rest : List ServerEvent) :
    (runListen (ServerEvent.listening :: rest)).promise = PromiseState.resolved ∧
    (runListen (ServerEvent.listening :: rest)).log = rest.filterMap errLog ∧
    (∀ e : JsError, handleServerError true e = ServerErrorAction.logged e) := by
  have hrun : runListen (ServerEvent.listening :: rest) =
      ⟨PromiseState.resolved, ErrorHandler.logHandler, rest.filterMap errLog⟩ := by
    show List.foldl listenStep (listenStep initialListenState ServerEvent.listening) rest =
      ⟨PromiseState.resolved, ErrorHandler.logHandler, rest.filterMap errLog⟩
    simp only [listenStep, initialListenState, settle]
    have := foldl_listenStep_resolved rest []
    simpa using this
  refine ⟨by rw [hrun], by rw [hrun], fun e => rfl⟩

/-- C3: for a socket-path bind, an ENOENT errno exception from the unlink
attempt is ignored silently, while any other unlink failure produces
exactly one log entry; in both cases the listen call still targets the
socket path. -/
theorem socket_cleanup_error_policy (p : String) (port : Nat) (host : String)
    (e : JsError) :
    (isNodeJSErrnoException e = true → e.code = some "ENOENT" →
      listenSetup ⟨some p, port, host⟩ (UnlinkResult.err e) =
        ([], ListenCall.onSocket p)) ∧
    (¬ (isNodeJSErrnoException e = true ∧ e.code = some "ENOENT") →
      (listenSetup ⟨some p, port, host⟩ (UnlinkResult.err e)).1.length = 1 ∧
      (listenSetup ⟨some p, port, host⟩ (UnlinkResult.err e)).2 =
        ListenCall.onSocket p) := by
  constructor
  · intro h1 h2
    simp [listenSetup, handleArgsSocketCatchError, h1, h2]
  · intro h
    have hcond : isNodeJSErrnoException e = false ∨ e.code ≠ some "ENOENT" := by
      by_cases hz : isNodeJSErrnoException e = true
      · right
        intro hc
        exact h ⟨hz, hc⟩
      · left
        simpa using hz
    constructor
    · simp only [listenSetup, handleArgsSocketCatchError, if_pos hcond]
      by_cases hm : e.message ≠ ""
      · simp [hm]
      · simp [hm]
    · rfl

/-- Witness for C3 at concrete inputs: an ENOENT errno exception produces
no log entry, and a permission-denied error produces exactly one. -/
theorem socket_cleanup_error_policy_witness :
    listenSetup ⟨some "/tmp/app.sock", 0, "h"⟩
        (UnlinkResult.err ⟨true, some "ENOENT", "gone"⟩) =
      ([], ListenCall.onSocket "/tmp/app.sock") ∧
    ((listenSetup ⟨some "/tmp/app.sock", 0, "h"⟩
        (UnlinkResult.err ⟨true, some "EACCES", "denied"⟩)).1.length = 1 ∧
      (listenSetup ⟨some "/tmp/app.sock", 0, "h"⟩
        (UnlinkResult.err ⟨true, some "EACCES", "denied"⟩)).2 =
        ListenCall.onSocket "/tmp/app.sock") :=
  ⟨(socket_cleanup_error_policy "/tmp/app.sock" 0 "h"
      ⟨true, some "ENOENT", "gone"⟩).1 (by decide) (by decide),
   (socket_cleanup_error_policy "/tmp/app.sock" 0 "h"
      ⟨true, some "EACCES", "denied"⟩).2 (by decide)⟩

/-- C9: for every network-endpoint bind target, the host passed to the
underlying listen call is the configured host with a leading "[" and a
trailing "]" stripped when present; a fully bracketed host loses exactly
its enclosing brackets, and the literal "[::1]" binds to "::1". -/
theorem listen_strips_host_brackets :
    (∀ (host : String) (port : Nat) (u : UnlinkResult),
      (listenSetup ⟨none, port, host⟩ u).2 =
        ListenCall.onHostPort port (stripBrackets host)) ∧
    (∀ h : List Char,
      stripBrackets (String.mk ('[' :: (h ++ [']']))) = String.mk h) ∧
    stripBrackets "[::1]" = "::1" ∧
    stripBrackets "::1" = "::1" ∧
    stripBrackets "localhost" = "localhost" := by
  refine ⟨fun host port u => rfl, ?_, by decide, by decide, by decide⟩
  intro h
  simp [stripBrackets, stripBracketsList]

/-- C6: for every structural bound address, `ensureAddress` returns
exactly "http://" followed by the address, ":", and the port; in
particular address "127.0.0.1" with port 8080 yields
"http://127.0.0.1:8080". -/
theorem ensureAddress_structural :
    (∀ (a : String) (p : Nat),
      ensureAddress (some (ServerAddress.info a p)) =
        Except.ok ("http://" ++ a ++ ":" ++ toString p)) ∧
    ensureAddress (some (ServerAddress.info "127.0.0.1" 8080)) =
      Except.ok "http://127.0.0.1:8080" := by
  exact ⟨fun a p => rfl, rfl⟩

/-- C7: for every string bound address (the socket-path case),
`ensureAddress` returns that string verbatim, with no protocol prefix and
no other change; in particular "/tmp/app.sock" is returned unchanged. -/
theorem ensureAddress_socket_verbatim :
    (∀ s : String,
      ensureAddress (some (ServerAddress.str s)) = Except.ok s) ∧
    ensureAddress (some (ServerAddress.str "/tmp/app.sock")) =
      Except.ok "/tmp/app.sock" :=
  ⟨fun _ => rfl, rfl⟩

/-- C8: when the handle reports no bound address, `ensureAddress` fails
with the no-address error rather than returning a value. -/
theorem ensureAddress_unbound_throws :
    ensureAddress none = Except.error noAddressErrorMessage ∧
    ∀ v : String, ensureAddress none ≠ Except.ok v :=
  ⟨rfl, fun v h => by simp [ensureAddress] at h⟩

/-- The promise of a bind attempt whose first event is an error is
rejected with that error. -/
theorem runListen_error_first_promise (e : JsError) (rest : List ServerEvent) :
    (runListen (ServerEvent.error e :: rest)).promise = PromiseState.rejected e := by
  show (List.foldl listenStep
      (listenStep initialListenState (ServerEvent.error e)) rest).promise =
    PromiseState.rejected e
  simp only [listenStep, initialListenState, settle]
  exact foldl_listenStep_rejected e rest ErrorHandler.rejectHandler []

/-- C4 counterexample: on a concrete invocation with a certificate
configured, the bootstrap effect trace of `createApp` does contain a
credential file read (`fs.readFile` of the certificate path), refuting
the claim that the bootstrap path performs no file I/O for
credentials. -/
theorem createApp_reads_credentials_counterexample :
    Effect.readFile "cert.pem" ∈
      (createApp demoFs demoTlsArgs [ServerEvent.listening] UnlinkResult.ok).1 := by
  decide

/-- C4 amended: when no certificate is configured, `createApp` performs
no credential file read; when a certificate is configured, `createApp`
itself reads the certificate file (and the key file, when configured)
during bootstrap, before the bind. -/
theorem createApp_credential_read_effects (fsContents : String → List Nat)
    (args : DefaultedArgs) (events : List ServerEvent) (u : UnlinkResult) :
    (args.cert = none →
      ∀ p, Effect.readFile p ∉ (createApp fsContents args events u).1) ∧
    (∀ c, args.cert = some c →
      Effect.readFile c.value ∈ (createApp fsContents args events u).1) := by
  constructor
  · intro hc p
    simp only [createApp, hc]
    cases listenOutcome events with
    | none => simp
    | some r =>
        cases r with
        | error e => simp
        | ok v => simp
  · intro c hc
    simp only [createApp, hc]
    cases listenOutcome events with
    | none => simp
    | some r =>
        cases r with
        | error e => simp
        | ok v => simp

/-- Witness for C4 amended at concrete inputs: the plaintext invocation
performs no credential read, the TLS invocation reads the certificate
file. -/
theorem createApp_credential_read_effects_witness :
    Effect.readFile "key.pem" ∉
      (createApp demoFs demoPlainArgs [ServerEvent.listening] UnlinkResult.ok).1 ∧
    Effect.readFile "cert.pem" ∈
      (createApp demoFs demoTlsArgs [ServerEvent.listening] UnlinkResult.ok).1 :=
  ⟨(createApp_credential_read_effects demoFs demoPlainArgs
      [ServerEvent.listening] UnlinkResult.ok).1 rfl "key.pem",
   (createApp_credential_read_effects demoFs demoTlsArgs
      [ServerEvent.listening] UnlinkResult.ok).2 ⟨"cert.pem"⟩ rfl⟩

/-- C5: on a successful bind, when no certificate is configured the
produced handle is a plaintext HTTP server, and when a certificate is
configured it is an encrypted-transport server carrying the certificate
bytes and the optional key bytes; in both cases the handle is wired to
the same primary request handler, the one returned as the first component
of the triple. -/
theorem createApp_transport_selection (fsContents : String → List Nat)
    (args : DefaultedArgs) (u : UnlinkResult) :
    (args.cert = none →
      (createApp fsContents args [ServerEvent.listening] u).2 =
        some (Except.ok
          (primaryApp, wsAppEmpty, ServerHandle.plainHttp primaryApp))) ∧
    (∀ c, args.cert = some c →
      (createApp fsContents args [ServerEvent.listening] u).2 =
        some (Except.ok (primaryApp, wsAppEmpty,
          ServerHandle.tls (fsContents c.value)
            (args.certKey.map fsContents) primaryApp))) := by
  have hout : listenOutcome [ServerEvent.listening] = some (Except.ok ()) := rfl
  constructor
  · intro hc
    simp [createApp, hout, hc]
  · intro c hc
    simp [createApp, hout, hc]

/-- Witness for C5 at concrete inputs: the plaintext and the TLS
invocation each produce the stated triple. -/
theorem createApp_transport_selection_witness :
    (createApp demoFs demoPlainArgs [ServerEvent.listening] UnlinkResult.ok).2 =
      some (Except.ok
        (primaryApp, wsAppEmpty, ServerHandle.plainHttp primaryApp)) ∧
    (createApp demoFs demoTlsArgs [ServerEvent.listening] UnlinkResult.ok).2 =
      some (Except.ok (primaryApp, wsAppEmpty,
        ServerHandle.tls (demoFs "cert.pem")
          (demoTlsArgs.certKey.map demoFs) primaryApp)) :=
  ⟨(createApp_transport_selection demoFs demoPlainArgs UnlinkResult.ok).1 rfl,
   (createApp_transport_selection demoFs demoTlsArgs UnlinkResult.ok).2
      ⟨"cert.pem"⟩ rfl⟩

/-- C10: for every invocation of `createApp` whose bind attempt fails
(an error is emitted before "listening"), `createApp` propagates exactly
that rejection, and the upgrade dispatcher is never attached: no
`handleUpgrade` effect appears in the trace. -/
theorem createApp_bind_failure_no_upgrade (fsContents : String → List Nat)
    (args : DefaultedArgs) (u : UnlinkResult) (e : JsError)
    (rest : List ServerEvent) :
    (createApp fsContents args (ServerEvent.error e :: rest) u).2 =
      some (Except.error e) ∧
    Effect.upgradeAttach ∉
      (createApp fsContents args (ServerEvent.error e :: rest) u).1 := by
  have hout : listenOutcome (ServerEvent.error e :: rest) =
      some (Except.error e) := by
    simp [listenOutcome, runListen_error_first_promise e rest]
  constructor
  · simp [createApp, hout]
  · simp only [createApp, hout]
    cases args.cert with
    | none => simp
    | some c =>
        cases args.certKey with
        | none => simp
        | some k => simp
